/-
Verification development for the qm-opt-uvvis-lab5 repository.

The repository is a teaching notebook (src/Opt_and_uvvis.ipynb) that drives
psi4: it loads a molecule, optimizes its geometry, runs a single point with
wavefunction retention, computes TDSCF excitations, and asks the student to
convert excitation energies (Hartree) to wavelengths (nm) via E = h*c/lambda
using SI constants.  The specification additionally fixes the behaviour of
two components a native implementation would own: a gradient-based geometry
optimizer and a spectral synthesis engine.  Neither component's code is in
src/, so both are modelled here from the spec's words; the notebook's
workflow (the call sequence into psi4) is modelled from the notebook cells.

Numbers are embedded as exact rationals (machine floats are modelled by
exact real/rational arithmetic); the Gaussian broadening kernel lives in the
reals since it is transcendental.
-/
import Mathlib

namespace UvLab

/- ## Physical constants (CODATA / SI exact values, as rationals) -/

/-- Planck constant, 6.62607015e-34 J s (SI exact). -/
def hSI : ℚ := 662607015 / 10 ^ 42

/-- Speed of light, 299792458 m/s (SI exact). -/
def cSI : ℚ := 299792458

/-- One Hartree in Joules, 4.3597447222071e-18 J (CODATA 2018). -/
def hartreeJ : ℚ := 43597447222071 / 10 ^ 31

/-- Modelled from the spec and the notebook's conversion task (the notebook
leaves the implementation to the student): convert an excitation energy in
Hartree to a wavelength in nanometers, lambda = h*c/E, converting the energy
to Joules first and using SI values of h and c. -/
def wavelength_nm (E : ℚ) : ℚ := hSI * cSI / (E * hartreeJ) * 10 ^ 9

/- ## Data model: molecules, transitions, spectra -/

/-- Cartesian triple of exact coordinates. -/
abbrev Vec3 := ℚ × ℚ × ℚ

/-- An atom: element symbol and Cartesian position (spec section 3). -/
structure Atom where
  sym : String
  pos : Vec3
deriving DecidableEq

/-- A molecule: ordered atoms, net charge, spin multiplicity (spec section 3). -/
structure Molecule where
  atoms : List Atom
  charge : ℤ
  mult : ℕ
deriving DecidableEq

/-- One electronic transition: excitation energy (Hartree) and oscillator
strength (dimensionless), per spec section 3. -/
structure Transition where
  energy : ℚ
  strength : ℚ
deriving DecidableEq

/-- Broadening model recognized by the spectral synthesis engine. -/
inductive Broadening where
  | gaussian
  | lorentzian
  | none
deriving DecidableEq

/-- Modelled from the spec: configuration of the spectral synthesis engine
(broadening kind, width in nm interpreted as the Gaussian sigma, optional
explicit wavelength window, number of grid points). -/
structure SpecConfig where
  broadening : Broadening
  width : ℚ
  grid_min : Option ℚ
  grid_max : Option ℚ
  grid_points : ℕ
deriving DecidableEq

/-- Input-validation failures of the spectral synthesis engine. -/
inductive SpectrumError where
  | EmptyInput
  | InvalidEnergy
  | InvalidConfig
deriving DecidableEq

/-- A spectrum: the stick data (wavelength nm, oscillator strength) and the
sampled curve (wavelength nm, intensity).  Curve intensities are real since
Gaussian broadening is transcendental. -/
structure Spectrum where
  sticks : List (ℚ × ℚ)
  curve : List (ℚ × ℝ)

/- ## Spectral synthesis engine (modelled from the spec, section 4.2) -/

/-- True when both explicit grid bounds are supplied and min >= max. -/
def boundsBad (cfg : SpecConfig) : Bool :=
  match cfg.grid_min, cfg.grid_max with
  | some a, some b => decide (b ≤ a)
  | _, _ => false

/-- Modelled from the spec: input validation of `synthesize`, performed
before any computation (EmptyInput, InvalidEnergy, InvalidConfig). -/
def validateInput (ts : List Transition) (cfg : SpecConfig) : Option SpectrumError :=
  if ts = [] then some SpectrumError.EmptyInput
  else if ∃ t ∈ ts, t.energy ≤ 0 then some SpectrumError.InvalidEnergy
  else if cfg.width ≤ 0 ∨ cfg.grid_points < 2 ∨ boundsBad cfg = true then
    some SpectrumError.InvalidConfig
  else Option.none

/-- One (wavelength, strength) stick per transition. -/
def sticksOf (ts : List Transition) : List (ℚ × ℚ) :=
  ts.map (fun t => (wavelength_nm t.energy, t.strength))

/-- Smallest stick wavelength (0 for the empty list, which validation
excludes). -/
def stickMin (l : List (ℚ × ℚ)) : ℚ :=
  match l with
  | [] => 0
  | p :: rest => rest.foldl (fun acc q => min acc q.1) p.1

/-- Largest stick wavelength (0 for the empty list, which validation
excludes). -/
def stickMax (l : List (ℚ × ℚ)) : ℚ :=
  match l with
  | [] => 0
  | p :: rest => rest.foldl (fun acc q => max acc q.1) p.1

/-- Resolved wavelength window: the explicit bounds when supplied, otherwise
min/max peak wavelength extended by three widths (the spec's "a few"). -/
def resolvedBounds (ts : List Transition) (cfg : SpecConfig) : ℚ × ℚ :=
  (cfg.grid_min.getD (stickMin (sticksOf ts) - 3 * cfg.width),
   cfg.grid_max.getD (stickMax (sticksOf ts) + 3 * cfg.width))

/-- The wavelength grid: `grid_points` evenly spaced samples over the
resolved window. -/
def gridOf (ts : List Transition) (cfg : SpecConfig) : List ℚ :=
  (List.range cfg.grid_points).map
    (fun i => (resolvedBounds ts cfg).1 +
      (i : ℚ) * ((resolvedBounds ts cfg).2 - (resolvedBounds ts cfg).1) /
        ((cfg.grid_points : ℚ) - 1))

/-- Normalized Gaussian profile with sigma `w`, evaluated at offset `x`. -/
noncomputable def gaussKernel (w x : ℝ) : ℝ :=
  Real.exp (-(x ^ 2) / (2 * w ^ 2)) / (w * Real.sqrt (2 * Real.pi))

/-- Normalized Lorentzian profile with half-width `w`, evaluated at offset
`x`. -/
def lorentzKernel (w x : ℚ) : ℚ :=
  (w / 2) / ((x ^ 2 + (w / 2) ^ 2) * 314159265 / 100000000)

/-- Accumulated Gaussian-broadened intensity at wavelength `x`: the sum over
all sticks of strength times the normalized kernel. -/
noncomputable def curveValue (sticks : List (ℚ × ℚ)) (w : ℚ) (x : ℚ) : ℝ :=
  (sticks.map (fun p => (p.2 : ℝ) * gaussKernel (w : ℝ) ((x : ℝ) - (p.1 : ℝ)))).sum

/-- Accumulated Lorentzian-broadened intensity at wavelength `x`. -/
def curveValueL (sticks : List (ℚ × ℚ)) (w : ℚ) (x : ℚ) : ℚ :=
  (sticks.map (fun p => p.2 * lorentzKernel w (x - p.1))).sum

/-- Modelled from the spec: `synthesize(transitions, config) -> Spectrum`.
Validation happens before any computation; with `broadening = none` the
curve is the stick data itself; otherwise the curve is the dense kernel
accumulation over the wavelength grid. -/
noncomputable def synthesize (ts : List Transition) (cfg : SpecConfig) :
    Except SpectrumError Spectrum :=
  match validateInput ts cfg with
  | some e => .error e
  | Option.none =>
    match cfg.broadening with
    | Broadening.none =>
        .ok ⟨sticksOf ts, (sticksOf ts).map (fun p => (p.1, (p.2 : ℝ)))⟩
    | Broadening.gaussian =>
        .ok ⟨sticksOf ts,
             (gridOf ts cfg).map (fun x => (x, curveValue (sticksOf ts) cfg.width x))⟩
    | Broadening.lorentzian =>
        .ok ⟨sticksOf ts,
             (gridOf ts cfg).map (fun x => (x, (curveValueL (sticksOf ts) cfg.width x : ℝ)))⟩

/-- The spectrum's curve attains its maximum within `w` of wavelength `c`:
some curve sample is a global maximum of the sampled curve and lies in the
window. -/
def maxWithin (s : Spectrum) (c w : ℚ) : Prop :=
  ∃ p ∈ s.curve, (∀ q ∈ s.curve, q.2 ≤ p.2) ∧ |p.1 - c| ≤ w

/- ## Geometry optimizer (modelled from the spec, section 4.1) -/

/-- Failures of the external energy/gradient oracle. -/
inductive OracleError where
  | ConvergenceFailed
  | UnsupportedMethod
deriving DecidableEq

/-- The energy/gradient oracle capability: geometry to (energy, gradient). -/
abbrev Oracle := Molecule → Except OracleError (ℚ × List Vec3)

/-- Typed failures of the geometry optimizer. -/
inductive OptimizationError where
  | MaxStepsExceeded
  | OracleFailed
  | Diverged
deriving DecidableEq

/-- Line-search policy recognized by the optimizer configuration. -/
inductive LineSearch where
  | none
  | backtracking
deriving DecidableEq

/-- Modelled from the spec: optimizer configuration with the spec's default
values (max_steps 100, gradient_rms_tol 3e-5, energy_change_tol 1e-6, a
step-norm cap, line-search policy, and the configurable number of
consecutive energy increases tolerated before Diverged). -/
structure OptConfig where
  max_steps : ℕ := 100
  gradient_rms_tol : ℚ := 3 / 100000
  energy_change_tol : ℚ := 1 / 1000000
  max_step_norm : ℚ := 3 / 10
  line_search : LineSearch := LineSearch.none
  diverge_after : ℕ := 5
deriving DecidableEq

/-- Squared Euclidean norm of one 3-vector. -/
def normSq3 (v : Vec3) : ℚ := v.1 ^ 2 + v.2.1 ^ 2 + v.2.2 ^ 2

/-- Sum of squared components over a per-atom vector list. -/
def gradSumSq (g : List Vec3) : ℚ := (g.map normSq3).sum

/-- Squared gradient RMS (mean square of the 3N gradient components).
Comparing it with the squared tolerance is equivalent to comparing the RMS
with the tolerance, and keeps the loop inside exact rational arithmetic. -/
def gradRMSsq (g : List Vec3) : ℚ := gradSumSq g / (3 * g.length)

/-- Energy change from the previous accepted step; 0 on the first step,
where no previous accepted step exists. -/
def echangeOf (prevE : Option ℚ) (E : ℚ) : ℚ :=
  match prevE with
  | some pE => E - pE
  | Option.none => 0

/-- Consecutive-energy-increase counter update for divergence detection. -/
def divCountNext (prevE : Option ℚ) (E : ℚ) (dc : ℕ) : ℕ :=
  match prevE with
  | some pE => if pE < E then dc + 1 else 0
  | Option.none => 0

/-- Scale a displacement list componentwise. -/
def scaleDisp (c : ℚ) (d : List Vec3) : List Vec3 :=
  d.map (fun v => (c * v.1, c * v.2.1, c * v.2.2))

/-- Steepest-descent direction (the spec's quasi-Newton step with the
identity inverse-Hessian model): the negated gradient. -/
def descentDir (g : List Vec3) : List Vec3 :=
  g.map (fun v => (-v.1, -v.2.1, -v.2.2))

/-- Clamp the step so its norm does not exceed `maxNorm`: when the squared
norm exceeds `maxNorm ^ 2`, rescale by `maxNorm ^ 2 / normSq`, which brings
the resulting norm to at most `maxNorm` while staying rational. -/
def clampStep (maxNorm : ℚ) (d : List Vec3) : List Vec3 :=
  if gradSumSq d ≤ maxNorm ^ 2 then d else scaleDisp (maxNorm ^ 2 / gradSumSq d) d

/-- Apply a displacement to a molecule, producing a new Molecule value. -/
def trialStep (mol : Molecule) (disp : List Vec3) : Molecule :=
  Molecule.mk
    ((mol.atoms.zip disp).map
      (fun p => Atom.mk p.1.sym
        (p.1.pos.1 + p.2.1, p.1.pos.2.1 + p.2.2.1, p.1.pos.2.2 + p.2.2.2)))
    mol.charge mol.mult

/-- Modelled from the spec: backtracking line search.  Try the displacement,
halving it on each failed trial; accept the first trial with an energy
decrease; after the bounded number of shrinks accept the smallest trial step
anyway, flagged non-descending.  Returns the accepted molecule, the
non-descending flag, and how many oracle evaluations were spent. -/
def backtrackR (oracle : Oracle) (E0 : ℚ) (mol : Molecule) (disp : List Vec3) :
    ℕ → Except OptimizationError (Molecule × Bool × ℕ)
  | 0 => .ok (trialStep mol disp, true, 0)
  | k + 1 =>
    match oracle (trialStep mol disp) with
    | .error _ => .error OptimizationError.OracleFailed
    | .ok (Ec, _) =>
      if Ec < E0 then .ok (trialStep mol disp, false, 1)
      else
        match backtrackR oracle E0 mol (scaleDisp (1 / 2) disp) k with
        | .error e => .error e
        | .ok (m, f, n) => .ok (m, f, n + 1)

/-- Bound on the number of trial shrinks in one backtracking line search. -/
def maxShrinks : ℕ := 4

/-- One coordinate update: clamped descent step, optionally refined by the
backtracking line search.  Returns the new molecule, the non-descending
flag, and the number of extra oracle evaluations spent. -/
def takeStepR (oracle : Oracle) (cfg : OptConfig) (mol : Molecule) (E : ℚ)
    (g : List Vec3) : Except OptimizationError (Molecule × Bool × ℕ) :=
  match cfg.line_search with
  | LineSearch.none =>
      .ok (trialStep mol (clampStep cfg.max_step_norm (descentDir g)), false, 0)
  | LineSearch.backtracking =>
      backtrackR oracle E mol (clampStep cfg.max_step_norm (descentDir g)) maxShrinks

/-- Diagnostic outcome of a successful optimization: the converged molecule
together with its oracle energy/gradient, the energy change at the
converging step, the number of oracle evaluations, and the number of
iterations consumed. -/
structure OptOutcome where
  mol : Molecule
  energy : ℚ
  grad : List Vec3
  echange : ℚ
  evals : ℕ
  steps : ℕ
deriving DecidableEq

/-- Modelled from the spec: the optimization loop.  Each iteration calls the
oracle at the current geometry, declares convergence when gradient RMS and
absolute energy change are both within tolerance on that same step, detects
divergence, and otherwise takes a clamped (optionally line-searched) step.
`fuel` is the remaining iteration budget; exhausting it yields
MaxStepsExceeded. -/
def optRun (oracle : Oracle) (cfg : OptConfig) :
    ℕ → Molecule → Option ℚ → ℕ → ℕ → ℕ → Except OptimizationError OptOutcome
  | 0, _, _, _, _, _ => .error OptimizationError.MaxStepsExceeded
  | fuel + 1, mol, prevE, dc, ev, it =>
    match oracle mol with
    | .error _ => .error OptimizationError.OracleFailed
    | .ok (E, g) =>
      if gradRMSsq g ≤ cfg.gradient_rms_tol ^ 2 ∧ |echangeOf prevE E| ≤ cfg.energy_change_tol
      then .ok ⟨mol, E, g, echangeOf prevE E, ev + 1, it + 1⟩
      else if cfg.diverge_after < divCountNext prevE E dc then
        .error OptimizationError.Diverged
      else
        match takeStepR oracle cfg mol E g with
        | .error e => .error e
        | .ok (mol', _, n) =>
            optRun oracle cfg fuel mol' (some E) (divCountNext prevE E dc) (ev + 1 + n) (it + 1)

/-- Modelled from the spec: `optimize(initial, oracle, config)`.  Pure value
semantics: the converged geometry is returned inside the outcome, and the
caller's Molecule value is untouched. -/
def optimize (initial : Molecule) (oracle : Oracle) (cfg : OptConfig) :
    Except OptimizationError OptOutcome :=
  optRun oracle cfg cfg.max_steps initial Option.none 0 0 0

/-- Observable side effects an optimizer implementation could perform: an
oracle call, or an in-place overwrite of the caller's molecule (the
reference psi4 behaviour that the spec deliberately replaces). -/
inductive Effect where
  | oracleCall (m : Molecule)
  | mutateCaller (m : Molecule)
deriving DecidableEq

/-- Effect trace of one backtracking line search: the oracle calls it
performs, in order. -/
def backtrackFx (oracle : Oracle) (E0 : ℚ) (mol : Molecule) (disp : List Vec3) :
    ℕ → List Effect
  | 0 => []
  | k + 1 =>
    Effect.oracleCall (trialStep mol disp) ::
      (match oracle (trialStep mol disp) with
       | .error _ => []
       | .ok (Ec, _) =>
         if Ec < E0 then [] else backtrackFx oracle E0 mol (scaleDisp (1 / 2) disp) k)

/-- Effect trace of one coordinate update. -/
def takeStepFx (oracle : Oracle) (cfg : OptConfig) (mol : Molecule) (E : ℚ)
    (g : List Vec3) : List Effect :=
  match cfg.line_search with
  | LineSearch.none => []
  | LineSearch.backtracking =>
      backtrackFx oracle E mol (clampStep cfg.max_step_norm (descentDir g)) maxShrinks

/-- Effect trace of the optimization loop, mirroring `optRun`. -/
def optFx (oracle : Oracle) (cfg : OptConfig) :
    ℕ → Molecule → Option ℚ → ℕ → List Effect
  | 0, _, _, _ => []
  | fuel + 1, mol, prevE, dc =>
    Effect.oracleCall mol ::
      (match oracle mol with
       | .error _ => []
       | .ok (E, g) =>
         if gradRMSsq g ≤ cfg.gradient_rms_tol ^ 2 ∧ |echangeOf prevE E| ≤ cfg.energy_change_tol
         then []
         else if cfg.diverge_after < divCountNext prevE E dc then []
         else
           takeStepFx oracle cfg mol E g ++
             (match takeStepR oracle cfg mol E g with
              | .error _ => []
              | .ok (mol', _, _) => optFx oracle cfg fuel mol' (some E) (divCountNext prevE E dc)))

/-- Full effect trace of one `optimize` run. -/
def optimizeEffects (initial : Molecule) (oracle : Oracle) (cfg : OptConfig) :
    List Effect :=
  optFx oracle cfg cfg.max_steps initial Option.none 0

/- ## Notebook workflow model (from src/Opt_and_uvvis.ipynb) -/

/-- A wavefunction handle: which geometry it was computed at, whether the
save_jk retention option was active, and whether it was requested back from
the energy call (return_wfn). -/
structure Wfn where
  srcMol : Molecule
  savedJK : Bool
  retained : Bool
deriving DecidableEq

/-- The external psi4 package, abstracted: geometry optimization, energy
value, and TDSCF excitations. -/
structure Psi4Model where
  optimizeImpl : String → Molecule → Molecule
  energyVal : String → Molecule → ℚ
  tdscfImpl : Wfn → ℕ → List Transition

/-- Mutable psi4 driver state visible in the notebook: the save_jk option
and the output file. -/
structure NbState where
  saveJK : Bool
  outFile : String
deriving DecidableEq

/-- The psi4 energy call: returns the energy and a wavefunction handle
stamped with the geometry it was computed at, the save_jk option in force,
and the return_wfn request. -/
def psi4EnergyM (M : Psi4Model) (lot : String) (retWfn : Bool) (st : NbState)
    (m : Molecule) : ℚ × Wfn :=
  (M.energyVal lot m, ⟨m, st.saveJK, retWfn⟩)

/-- Events of the notebook workflow, in execution order. -/
inductive NbEvent where
  | geometryLoad (m : Molecule)
  | setOutput (f : String)
  | optimizeCall (lot : String) (m : Molecule)
  | setSaveJK (b : Bool)
  | energyCall (lot : String) (m : Molecule) (retWfn : Bool)
  | tdscfCall (w : Wfn) (nstates : ℕ)
  | synthesizeCall (ts : List Transition)
deriving DecidableEq

/-- Level of theory used throughout the notebook. -/
def nbLevel : String := ("pbe/6-31g*")

/-- The notebook workflow (cells of src/Opt_and_uvvis.ipynb, with the
spec's data-flow hand-off of the transitions to the spectral synthesis
engine): load the geometry, optimize in place (modelled by rebinding `mol`
to the converged geometry), set save_jk, run the single point with
return_wfn, run TDSCF on the returned wavefunction for 10 states, and feed
the transitions to `synthesize`.  Returns the event trace, the transitions,
and the synthesized spectrum. -/
noncomputable def notebookRun (M : Psi4Model) (m0 : Molecule) (cfg : SpecConfig) :
    List NbEvent × List Transition × Except SpectrumError Spectrum :=
  let st1 : NbState := ⟨false, ("optimize_benzene.txt")⟩
  let mol1 := M.optimizeImpl nbLevel m0
  let st3 : NbState := ⟨true, ("benzene_excitations.txt")⟩
  let ew := psi4EnergyM M nbLevel true st3 mol1
  let ts := M.tdscfImpl ew.2 10
  ([NbEvent.geometryLoad m0,
    NbEvent.setOutput st1.outFile,
    NbEvent.optimizeCall nbLevel m0,
    NbEvent.setSaveJK true,
    NbEvent.setOutput st3.outFile,
    NbEvent.energyCall nbLevel mol1 true,
    NbEvent.tdscfCall ew.2 10,
    NbEvent.synthesizeCall ts],
   ts,
   synthesize ts cfg)

/- ## Concrete instances used by witnesses and the C3 scenario -/

/-- The spec's concrete UV-Vis scenario: transitions at 0.1, 0.15, 0.2
Hartree with oscillator strengths 0.5, 0.0, 0.8. -/
def ts3 : List Transition := [⟨1 / 10, 1 / 2⟩, ⟨3 / 20, 0⟩, ⟨1 / 5, 4 / 5⟩]

/-- Gaussian broadening, width 10 nm, default window, 1000 grid points. -/
def cfg3 : SpecConfig := ⟨Broadening.gaussian, 10, Option.none, Option.none, 1000⟩

/-- Wavelength of the 0.1 Hartree transition (about 455.63 nm). -/
def lam1 : ℚ := wavelength_nm (1 / 10)

/-- Wavelength of the 0.15 Hartree transition (about 303.76 nm). -/
def lam2 : ℚ := wavelength_nm (3 / 20)

/-- Wavelength of the 0.2 Hartree transition (about 227.82 nm). -/
def lam3 : ℚ := wavelength_nm (1 / 5)

/-- Lower end of the default grid window for the scenario. -/
def gridA : ℚ := lam3 - 3 * 10

/-- Upper end of the default grid window for the scenario. -/
def gridB : ℚ := lam1 + 3 * 10

/-- The grid sample nearest the 227.8 nm stick (index 104 of 1000). -/
def x0q : ℚ := gridA + 104 * (gridB - gridA) / 999

/-- The spectrum the engine returns on the concrete scenario. -/
noncomputable def spec3 : Spectrum :=
  ⟨sticksOf ts3,
   (gridOf ts3 cfg3).map (fun x => (x, curveValue (sticksOf ts3) cfg3.width x))⟩

/-- Gaussian factor for width 10: exp(-t^2/200). -/
noncomputable def E10 (t : ℝ) : ℝ := Real.exp (-(t ^ 2) / 200)

/-- Normalization constant for width 10. -/
noncomputable def Z10 : ℝ := 10 * Real.sqrt (2 * Real.pi)

/-- Unnormalized two-peak intensity of the scenario (the 0.15 Hartree line
has strength 0): 0.5 at lam1 and 0.8 at lam3. -/
noncomputable def N3 (x : ℝ) : ℝ :=
  (1 / 2) * E10 (x - (lam1 : ℝ)) + (4 / 5) * E10 (x - (lam3 : ℝ))

/-- A one-atom molecule used by witnesses. -/
def mol1 : Molecule := ⟨[⟨("H"), (0, 0, 0)⟩], 0, 1⟩

/-- An oracle already at its analytic minimum everywhere: energy 0, zero
gradient for every atom. -/
def constOracle : Oracle := fun m => .ok (0, m.atoms.map (fun _ => (0, 0, 0)))

/-- The default optimizer configuration. -/
def cfg0 : OptConfig := {}

/-- The outcome `optimize` produces on `mol1` with `constOracle`. -/
def r0 : OptOutcome := ⟨mol1, 0, [(0, 0, 0)], 0, 1, 1⟩

/-- A trivial external-package model used by witnesses. -/
def M0 : Psi4Model := ⟨fun _ m => m, fun _ _ => 0, fun _ _ => []⟩

/-- A broadening-free configuration used by witnesses. -/
def cfgNone : SpecConfig := ⟨Broadening.none, 10, Option.none, Option.none, 1000⟩

end UvLab

namespace UvLab

/- ## Optimizer lemmas -/

/-- Invariant of the optimization loop: a successful outcome satisfies both
convergence conditions at the returned step, reports the oracle's data at
the converged geometry, and consumed at most the remaining iteration
budget. -/
lemma optRun_ok_inv (oracle : Oracle) (cfg : OptConfig) :
    ∀ (fuel : ℕ) (mol : Molecule) (prevE : Option ℚ) (dc ev it : ℕ) (r : OptOutcome),
      optRun oracle cfg fuel mol prevE dc ev it = .ok r →
      gradRMSsq r.grad ≤ cfg.gradient_rms_tol ^ 2 ∧
      |r.echange| ≤ cfg.energy_change_tol ∧
      oracle r.mol = .ok (r.energy, r.grad) ∧ r.steps ≤ it + fuel := by
  intro fuel
  induction fuel with
  | zero => intro mol prevE dc ev it r h; simp [optRun] at h
  | succ f ih =>
    intro mol prevE dc ev it r h
    rw [optRun] at h
    cases ho : oracle mol with
    | error e => rw [ho] at h; simp at h
    | ok Eg =>
      obtain ⟨E, g⟩ := Eg
      rw [ho] at h
      simp only at h
      by_cases hc : gradRMSsq g ≤ cfg.gradient_rms_tol ^ 2 ∧ |echangeOf prevE E| ≤ cfg.energy_change_tol
      · rw [if_pos hc] at h
        cases h
        exact ⟨hc.1, hc.2, ho, by show it + 1 ≤ it + (f + 1); omega⟩
      · rw [if_neg hc] at h
        by_cases hd : cfg.diverge_after < divCountNext prevE E dc
        · rw [if_pos hd] at h; simp at h
        · rw [if_neg hd] at h
          cases hs : takeStepR oracle cfg mol E g with
          | error e => rw [hs] at h; simp at h
          | ok v =>
            obtain ⟨mol', flag, n⟩ := v
            rw [hs] at h
            have := ih mol' (some E) (divCountNext prevE E dc) (ev + 1 + n) (it + 1) r h
            exact ⟨this.1, this.2.1, this.2.2.1, by omega⟩

/-- When the oracle's data at the initial geometry already satisfies the
gradient condition, the run converges on the first evaluation (the first
step has no previous accepted step, so its energy change is zero). -/
lemma optimize_first_step (initial : Molecule) (oracle : Oracle) (cfg : OptConfig)
    (E : ℚ) (g : List Vec3) (h1 : oracle initial = .ok (E, g))
    (h2 : gradRMSsq g ≤ cfg.gradient_rms_tol ^ 2) (h3 : 0 ≤ cfg.energy_change_tol)
    (h4 : 0 < cfg.max_steps) :
    optimize initial oracle cfg = .ok ⟨initial, E, g, 0, 1, 1⟩ := by
  obtain ⟨n, hn⟩ : ∃ n, cfg.max_steps = n + 1 := ⟨cfg.max_steps - 1, by omega⟩
  rw [optimize, hn, optRun, h1]
  simp only [echangeOf]
  rw [if_pos ⟨h2, by simpa using h3⟩]

/-- Effect-trace version of `optimize_first_step`: the only effect is the
single oracle call at the initial geometry. -/
lemma optimizeEffects_first_step (initial : Molecule) (oracle : Oracle) (cfg : OptConfig)
    (E : ℚ) (g : List Vec3) (h1 : oracle initial = .ok (E, g))
    (h2 : gradRMSsq g ≤ cfg.gradient_rms_tol ^ 2) (h3 : 0 ≤ cfg.energy_change_tol)
    (h4 : 0 < cfg.max_steps) :
    optimizeEffects initial oracle cfg = [Effect.oracleCall initial] := by
  obtain ⟨n, hn⟩ : ∃ n, cfg.max_steps = n + 1 := ⟨cfg.max_steps - 1, by omega⟩
  rw [optimizeEffects, hn, optFx, h1]
  simp only [echangeOf]
  rw [if_pos ⟨h2, by simpa using h3⟩]

/-- Every effect in a backtracking line search trace is an oracle call. -/
lemma backtrackFx_oracle_only (oracle : Oracle) :
    ∀ (k : ℕ) (disp : List Vec3) (E0 : ℚ) (mm : Molecule),
      ∀ x ∈ backtrackFx oracle E0 mm disp k, ∃ m, x = Effect.oracleCall m := by
  intro k
  induction k with
  | zero => intro disp E0 mm x hx; simp [backtrackFx] at hx
  | succ kk ihk =>
    intro disp E0 mm x hx
    rw [backtrackFx] at hx
    rcases List.mem_cons.mp hx with hx1 | hx1
    · exact ⟨trialStep mm disp, hx1⟩
    · cases hob : oracle (trialStep mm disp) with
      | error _ => rw [hob] at hx1; simp at hx1
      | ok Ec2 =>
        obtain ⟨Ec, g2⟩ := Ec2
        rw [hob] at hx1
        simp only at hx1
        by_cases hlt : Ec < E0
        · rw [if_pos hlt] at hx1; simp at hx1
        · rw [if_neg hlt] at hx1
          exact ihk (scaleDisp (1 / 2) disp) E0 mm x hx1

/-- Every effect in the optimizer's trace is an oracle call. -/
lemma optFx_oracle_only (oracle : Oracle) (cfg : OptConfig) :
    ∀ (fuel : ℕ) (mol : Molecule) (prevE : Option ℚ) (dc : ℕ),
      ∀ e ∈ optFx oracle cfg fuel mol prevE dc, ∃ m, e = Effect.oracleCall m := by
  intro fuel
  induction fuel with
  | zero => intro mol prevE dc e he; simp [optFx] at he
  | succ f ih =>
    intro mol prevE dc e he
    rw [optFx] at he
    rcases List.mem_cons.mp he with h | h
    · exact ⟨mol, h⟩
    · cases ho : oracle mol with
      | error _ => rw [ho] at h; simp at h
      | ok Eg =>
        obtain ⟨E, g⟩ := Eg
        rw [ho] at h
        simp only at h
        by_cases hc : gradRMSsq g ≤ cfg.gradient_rms_tol ^ 2 ∧ |echangeOf prevE E| ≤ cfg.energy_change_tol
        · rw [if_pos hc] at h; simp at h
        · rw [if_neg hc] at h
          by_cases hd : cfg.diverge_after < divCountNext prevE E dc
          · rw [if_pos hd] at h; simp at h
          · rw [if_neg hd] at h
            rcases List.mem_append.mp h with h2 | h2
            · rw [takeStepFx] at h2
              cases hls : cfg.line_search with
              | none => rw [hls] at h2; simp at h2
              | backtracking =>
                rw [hls] at h2
                exact backtrackFx_oracle_only oracle maxShrinks _ E mol e h2
            · cases hs : takeStepR oracle cfg mol E g with
              | error _ => rw [hs] at h2; simp at h2
              | ok v =>
                obtain ⟨mol', flag, n⟩ := v
                rw [hs] at h2
                exact ih mol' (some E) (divCountNext prevE E dc) e h2

/-- A gradient all of whose per-atom vectors are zero has zero squared sum. -/
lemma gradSumSq_zero (g : List Vec3) (h : ∀ v ∈ g, v = ((0 : ℚ), (0 : ℚ), (0 : ℚ))) :
    gradSumSq g = 0 := by
  induction g with
  | nil => simp [gradSumSq]
  | cons v t ih =>
    have hv := h v (List.mem_cons_self v t)
    have ht := ih (fun w hw => h w (List.mem_cons_of_mem v hw))
    rw [gradSumSq] at ht ⊢
    simp [hv, normSq3, ht]

/-- The concrete run used by witnesses: the one-atom molecule with the
always-converged oracle converges immediately to outcome `r0`. -/
lemma optimize_mol1 : optimize mol1 constOracle cfg0 = .ok r0 :=
  optimize_first_step mol1 constOracle cfg0 0 [(0, 0, 0)] rfl
    (by norm_num [gradRMSsq, gradSumSq, normSq3, cfg0])
    (by norm_num [cfg0]) (by norm_num [cfg0])

/- ## Claim theorems: geometry optimizer -/

/-- C1: for every initial Molecule, oracle, and configuration, `optimize`
has no side effects beyond oracle calls — every entry of its effect trace
is an oracle call, and in particular the trace never contains an in-place
overwrite of the caller's Molecule; the converged geometry is delivered as
a new value in the returned outcome. -/
theorem c1_optimizer_value_semantics (initial : Molecule) (oracle : Oracle)
    (cfg : OptConfig) :
    (∀ e ∈ optimizeEffects initial oracle cfg, ∃ m, e = Effect.oracleCall m) ∧
    (∀ m, Effect.mutateCaller m ∉ optimizeEffects initial oracle cfg) := by
  have h := optFx_oracle_only oracle cfg cfg.max_steps initial Option.none 0
  refine ⟨h, fun m hm => ?_⟩
  obtain ⟨m', hm'⟩ := h _ hm
  simp at hm'

/-- Witness for C1 at a concrete run. -/
theorem c1_witness : ∃ m, Effect.oracleCall mol1 = Effect.oracleCall m :=
  (c1_optimizer_value_semantics mol1 constOracle cfg0).1 (Effect.oracleCall mol1)
    (by
      rw [optimizeEffects_first_step mol1 constOracle cfg0 0 [(0, 0, 0)] rfl
        (by norm_num [gradRMSsq, gradSumSq, normSq3, cfg0])
        (by norm_num [cfg0]) (by norm_num [cfg0])]
      exact List.mem_singleton.mpr rfl)

/-- C5: a successful `optimize` run satisfies, at the returned step, BOTH
the gradient-RMS condition and the energy-change condition (so satisfying
only one of the two never yields a converged result); conversely, when both
conditions hold at the first evaluation the run reports success. -/
theorem c5_joint_convergence (initial : Molecule) (oracle : Oracle) (cfg : OptConfig) :
    (∀ r, optimize initial oracle cfg = .ok r →
        gradRMSsq r.grad ≤ cfg.gradient_rms_tol ^ 2 ∧
        |r.echange| ≤ cfg.energy_change_tol) ∧
    (∀ E g, oracle initial = .ok (E, g) → gradRMSsq g ≤ cfg.gradient_rms_tol ^ 2 →
        0 ≤ cfg.energy_change_tol → 0 < cfg.max_steps →
        ∃ r, optimize initial oracle cfg = .ok r) := by
  constructor
  · intro r h
    have := optRun_ok_inv oracle cfg cfg.max_steps initial Option.none 0 0 0 r h
    exact ⟨this.1, this.2.1⟩
  · intro E g h1 h2 h3 h4
    exact ⟨_, optimize_first_step initial oracle cfg E g h1 h2 h3 h4⟩

/-- Witness for C5 at a concrete run. -/
theorem c5_witness :
    gradRMSsq r0.grad ≤ cfg0.gradient_rms_tol ^ 2 ∧
    |r0.echange| ≤ cfg0.energy_change_tol :=
  (c5_joint_convergence mol1 constOracle cfg0).1 r0 optimize_mol1

/-- C6: for every Molecule with at least one atom, `optimize` terminates
(it is a total function) and either returns an outcome whose gradient RMS
is within tolerance after at most `max_steps` iterations, or a typed
OptimizationError; with a zero iteration budget the error is
MaxStepsExceeded.  A geometry is never silently returned unconverged. -/
theorem c6_no_silent_unconverged (initial : Molecule) (oracle : Oracle)
    (cfg : OptConfig) (_hat : initial.atoms ≠ []) :
    (∀ r, optimize initial oracle cfg = .ok r →
        gradRMSsq r.grad ≤ cfg.gradient_rms_tol ^ 2 ∧ r.steps ≤ cfg.max_steps) ∧
    (∀ e, optimize initial oracle cfg = .error e →
        e = OptimizationError.MaxStepsExceeded ∨ e = OptimizationError.OracleFailed ∨
        e = OptimizationError.Diverged) ∧
    (cfg.max_steps = 0 →
        optimize initial oracle cfg = .error OptimizationError.MaxStepsExceeded) := by
  refine ⟨?_, ?_, ?_⟩
  · intro r h
    have := optRun_ok_inv oracle cfg cfg.max_steps initial Option.none 0 0 0 r h
    refine ⟨this.1, ?_⟩
    have := this.2.2.2
    omega
  · intro e _
    cases e
    · exact Or.inl rfl
    · exact Or.inr (Or.inl rfl)
    · exact Or.inr (Or.inr rfl)
  · intro h0
    rw [optimize, h0, optRun]

/-- Witness for C6 at a concrete run. -/
theorem c6_witness :
    gradRMSsq r0.grad ≤ cfg0.gradient_rms_tol ^ 2 ∧ r0.steps ≤ cfg0.max_steps :=
  (c6_no_silent_unconverged mol1 constOracle cfg0 (by simp [mol1])).1 r0 optimize_mol1

/-- C7: when the oracle returns a zero gradient at the initial geometry,
`optimize` converges after exactly one oracle evaluation: the outcome is
the initial Molecule itself with one evaluation and one step recorded, and
the effect trace is the single oracle call at the initial geometry. -/
theorem c7_zero_gradient_one_eval (initial : Molecule) (oracle : Oracle)
    (cfg : OptConfig) (E : ℚ) (g : List Vec3) (h1 : oracle initial = .ok (E, g))
    (h2 : ∀ v ∈ g, v = ((0 : ℚ), (0 : ℚ), (0 : ℚ)))
    (h3 : 0 ≤ cfg.energy_change_tol) (h4 : 0 < cfg.max_steps) :
    optimize initial oracle cfg = .ok ⟨initial, E, g, 0, 1, 1⟩ ∧
    optimizeEffects initial oracle cfg = [Effect.oracleCall initial] := by
  have hg : gradRMSsq g ≤ cfg.gradient_rms_tol ^ 2 := by
    rw [gradRMSsq, gradSumSq_zero g h2, zero_div]
    positivity
  exact ⟨optimize_first_step initial oracle cfg E g h1 hg h3 h4,
         optimizeEffects_first_step initial oracle cfg E g h1 hg h3 h4⟩

/-- Witness for C7 at a concrete run. -/
theorem c7_witness :
    optimize mol1 constOracle cfg0 = .ok ⟨mol1, 0, [(0, 0, 0)], 0, 1, 1⟩ ∧
    optimizeEffects mol1 constOracle cfg0 = [Effect.oracleCall mol1] :=
  c7_zero_gradient_one_eval mol1 constOracle cfg0 0 [(0, 0, 0)] rfl
    (by simp) (by norm_num [cfg0]) (by norm_num [cfg0])

end UvLab

namespace UvLab

/- ## Spectral engine lemmas -/

/-- The conversion constant h*c*1e9/hartreeJ is positive. -/
lemma convConst_pos : 0 < hSI * cSI * 10 ^ 9 / hartreeJ := by
  norm_num [hSI, cSI, hartreeJ]

/-- The conversion as a single division by the energy. -/
lemma wavelength_nm_eq_div (E : ℚ) :
    wavelength_nm E = (hSI * cSI * 10 ^ 9 / hartreeJ) / E := by
  rw [wavelength_nm, div_mul_eq_mul_div, div_div, mul_comm E hartreeJ]

/-- Unfolding of a true `boundsBad`. -/
lemma boundsBad_true_iff (cfg : SpecConfig) :
    boundsBad cfg = true ↔
      ∃ a b, cfg.grid_min = some a ∧ cfg.grid_max = some b ∧ b ≤ a := by
  rw [boundsBad]
  cases hm : cfg.grid_min <;> cases hM : cfg.grid_max <;> simp

/-- Validation passes on well-formed input. -/
lemma validateInput_none_of (ts : List Transition) (cfg : SpecConfig)
    (h1 : ts ≠ []) (h2 : ∀ t ∈ ts, 0 < t.energy) (h4 : 0 < cfg.width)
    (h5 : 2 ≤ cfg.grid_points)
    (h6 : ∀ a b, cfg.grid_min = some a → cfg.grid_max = some b → a < b) :
    validateInput ts cfg = Option.none := by
  have hA : ¬ ∃ t ∈ ts, t.energy ≤ 0 := by
    rintro ⟨t, ht, hle⟩
    exact absurd hle (not_le.mpr (h2 t ht))
  have hB : ¬ (cfg.width ≤ 0 ∨ cfg.grid_points < 2 ∨ boundsBad cfg = true) := by
    rintro (hw | hp | hb)
    · exact absurd hw (not_le.mpr h4)
    · omega
    · obtain ⟨a, b, hma, hmb, hba⟩ := (boundsBad_true_iff cfg).mp hb
      exact absurd (h6 a b hma hmb) (not_lt.mpr hba)
  rw [validateInput, if_neg h1, if_neg hA, if_neg hB]

/- ## Claim theorems: spectral synthesis engine -/

/-- C2: the energy-to-wavelength conversion computes lambda = h*c/E with
the energy converted to Joules and SI constants, and it is strictly
monotonically decreasing: E1 < E2 (both positive) gives lambda1 >
lambda2. -/
theorem c2_conversion_monotone (E1 E2 : ℚ) (h0 : 0 < E1) (h12 : E1 < E2) :
    wavelength_nm E1 = hSI * cSI / (E1 * hartreeJ) * 10 ^ 9 ∧
    wavelength_nm E2 < wavelength_nm E1 := by
  refine ⟨rfl, ?_⟩
  have h02 : 0 < E2 := h0.trans h12
  rw [wavelength_nm_eq_div E1, wavelength_nm_eq_div E2]
  exact div_lt_div_of_pos_left convConst_pos h0 h12

/-- Witness for C2 at the scenario energies 0.1 and 0.2 Hartree. -/
theorem c2_witness :
    wavelength_nm (1 / 10) = hSI * cSI / ((1 / 10) * hartreeJ) * 10 ^ 9 ∧
    wavelength_nm (1 / 5) < wavelength_nm (1 / 10) :=
  c2_conversion_monotone (1 / 10) (1 / 5) (by norm_num) (by norm_num)

/-- C4: `synthesize` returns EmptyInput on the empty transition sequence
and InvalidEnergy when some transition has energy at most 0, and an error
is returned exactly when input validation (which runs before any
computation) reports it — so an error never carries spectrum data. -/
theorem c4_error_handling (ts : List Transition) (cfg : SpecConfig) :
    synthesize [] cfg = .error SpectrumError.EmptyInput ∧
    ((∃ t ∈ ts, t.energy ≤ 0) → synthesize ts cfg = .error SpectrumError.InvalidEnergy) ∧
    (∀ e, synthesize ts cfg = .error e ↔ validateInput ts cfg = some e) := by
  refine ⟨rfl, ?_, ?_⟩
  · intro hex
    have hne : ts ≠ [] := List.ne_nil_of_mem hex.choose_spec.1
    have hv : validateInput ts cfg = some SpectrumError.InvalidEnergy := by
      rw [validateInput, if_neg hne, if_pos hex]
    rw [synthesize, hv]
  · intro e
    constructor
    · intro h
      rw [synthesize] at h
      cases hv : validateInput ts cfg with
      | none =>
        rw [hv] at h
        cases hb : cfg.broadening <;> rw [hb] at h <;> simp at h
      | some e2 =>
        rw [hv] at h
        simp only [Except.error.injEq] at h
        rw [h]
    · intro h
      rw [synthesize, h]

/-- Witness for C4 at a concrete invalid transition list. -/
theorem c4_witness :
    synthesize [Transition.mk (-1) 1] cfgNone = .error SpectrumError.InvalidEnergy :=
  (c4_error_handling [Transition.mk (-1) 1] cfgNone).2.1
    ⟨Transition.mk (-1) 1, by simp, by norm_num⟩

/-- C8: with `broadening = none` and valid input, `synthesize` succeeds and
the curve is exactly the stick data — one (wavelength, strength) pair per
transition, the wavelengths given by the exact conversion, with no
broadening applied. -/
theorem c8_none_broadening (ts : List Transition) (cfg : SpecConfig)
    (h1 : ts ≠ []) (h2 : ∀ t ∈ ts, 0 < t.energy)
    (h3 : cfg.broadening = Broadening.none) (h4 : 0 < cfg.width)
    (h5 : 2 ≤ cfg.grid_points)
    (h6 : ∀ a b, cfg.grid_min = some a → cfg.grid_max = some b → a < b) :
    ∃ s, synthesize ts cfg = .ok s ∧
      s.sticks = ts.map (fun t => (wavelength_nm t.energy, t.strength)) ∧
      s.curve = s.sticks.map (fun p => (p.1, (p.2 : ℝ))) ∧
      s.sticks.length = ts.length ∧ s.curve.length = ts.length := by
  refine ⟨⟨sticksOf ts, (sticksOf ts).map (fun p => (p.1, (p.2 : ℝ)))⟩, ?_, rfl, rfl, ?_, ?_⟩
  · rw [synthesize, validateInput_none_of ts cfg h1 h2 h4 h5 h6, h3]
  · simp [sticksOf]
  · simp [sticksOf]

/-- Witness for C8 on the concrete scenario transitions. -/
theorem c8_witness :
    ∃ s, synthesize ts3 cfgNone = .ok s ∧
      s.sticks = ts3.map (fun t => (wavelength_nm t.energy, t.strength)) ∧
      s.curve = s.sticks.map (fun p => (p.1, (p.2 : ℝ))) ∧
      s.sticks.length = ts3.length ∧ s.curve.length = ts3.length :=
  c8_none_broadening ts3 cfgNone (by simp [ts3]) (by norm_num [ts3]) rfl
    (by norm_num [cfgNone]) (by norm_num [cfgNone]) (by simp [cfgNone])

/- ## Claim theorems: notebook workflow -/

/-- C9: the notebook pipeline runs the single-point energy (and thus the
excitation computation) on the Molecule produced by the optimizer, never on
the initial unoptimized geometry, and the transitions handed to the
spectral synthesis engine are exactly the TDSCF output on that
wavefunction. -/
theorem c9_pipeline_dataflow (M : Psi4Model) (m0 : Molecule) (cfg : SpecConfig) :
    NbEvent.energyCall nbLevel (M.optimizeImpl nbLevel m0) true ∈ (notebookRun M m0 cfg).1 ∧
    (∀ lot m rwf, NbEvent.energyCall lot m rwf ∈ (notebookRun M m0 cfg).1 →
        m = M.optimizeImpl nbLevel m0) ∧
    (M.optimizeImpl nbLevel m0 ≠ m0 →
        ∀ lot rwf, NbEvent.energyCall lot m0 rwf ∉ (notebookRun M m0 cfg).1) ∧
    (∀ w n, NbEvent.tdscfCall w n ∈ (notebookRun M m0 cfg).1 →
        w.srcMol = M.optimizeImpl nbLevel m0) ∧
    (notebookRun M m0 cfg).2.1 =
      M.tdscfImpl ⟨M.optimizeImpl nbLevel m0, true, true⟩ 10 ∧
    (notebookRun M m0 cfg).2.2 = synthesize ((notebookRun M m0 cfg).2.1) cfg := by
  refine ⟨?_, ?_, ?_, ?_, rfl, rfl⟩
  · simp [notebookRun, psi4EnergyM]
  · intro lot m rwf h
    simp [notebookRun, psi4EnergyM] at h
    exact h.2.1
  · intro hne lot rwf h
    simp [notebookRun, psi4EnergyM] at h
    exact hne h.2.1.symm
  · intro w n h
    simp [notebookRun, psi4EnergyM] at h
    rw [h.1]

end UvLab

namespace UvLab

/-- C10: in the notebook workflow, TDSCF is only invoked on a wavefunction
that came from an energy call with return_wfn = true made after save_jk was
set to true; the event timeline places setSaveJK before the energy call and
the energy call before the TDSCF call. -/
theorem c10_tdscf_preconditions (M : Psi4Model) (m0 : Molecule) (cfg : SpecConfig) :
    (∀ w n, NbEvent.tdscfCall w n ∈ (notebookRun M m0 cfg).1 →
        w.savedJK = true ∧ w.retained = true) ∧
    (∃ i j k : ℕ, i < j ∧ j < k ∧
        ((notebookRun M m0 cfg).1)[i]? = some (NbEvent.setSaveJK true) ∧
        ((notebookRun M m0 cfg).1)[j]? =
          some (NbEvent.energyCall nbLevel (M.optimizeImpl nbLevel m0) true) ∧
        ((notebookRun M m0 cfg).1)[k]? =
          some (NbEvent.tdscfCall ⟨M.optimizeImpl nbLevel m0, true, true⟩ 10)) := by
  constructor
  · intro w n h
    simp [notebookRun, psi4EnergyM] at h
    rw [h.1]
    exact ⟨rfl, rfl⟩
  · exact ⟨3, 5, 6, by norm_num, by norm_num, rfl, rfl, rfl⟩

/-- Witness for C9 on a trivial external-package model. -/
theorem c9_witness : mol1 = M0.optimizeImpl nbLevel mol1 :=
  (c9_pipeline_dataflow M0 mol1 cfgNone).2.1 nbLevel mol1 true
    (by simp [notebookRun, psi4EnergyM, M0])

/-- Witness for C10 on a trivial external-package model. -/
theorem c10_witness :
    (Wfn.mk (M0.optimizeImpl nbLevel mol1) true true).savedJK = true ∧
    (Wfn.mk (M0.optimizeImpl nbLevel mol1) true true).retained = true :=
  (c10_tdscf_preconditions M0 mol1 cfgNone).1 ⟨M0.optimizeImpl nbLevel mol1, true, true⟩ 10
    (by simp [notebookRun, psi4EnergyM])

end UvLab

namespace UvLab

/- ## C3 scenario: exact rational facts -/

/-- The 0.1 Hartree line lies within 1 nm of 456 nm. -/
lemma qacc1 : |wavelength_nm (1 / 10) - 456| ≤ 1 := by
  norm_num [abs_le, wavelength_nm, hSI, cSI, hartreeJ]

/-- The 0.15 Hartree line lies within 1 nm of 304 nm. -/
lemma qacc2 : |wavelength_nm (3 / 20) - 304| ≤ 1 := by
  norm_num [abs_le, wavelength_nm, hSI, cSI, hartreeJ]

/-- The 0.2 Hartree line lies within 1 nm of 228 nm. -/
lemma qacc3 : |wavelength_nm (1 / 5) - 228| ≤ 1 := by
  norm_num [abs_le, wavelength_nm, hSI, cSI, hartreeJ]

/-- The grid sample x0q lies within 0.1 nm of the 228 nm line. -/
lemma qx0 : |x0q - lam3| ≤ 1 / 10 := by
  norm_num [abs_le, x0q, gridA, gridB, lam1, lam3, wavelength_nm, hSI, cSI, hartreeJ]

/-- The two outer lines are at least 227.7 nm apart. -/
lemma qsep : 2277 / 10 ≤ lam1 - lam3 := by
  norm_num [lam1, lam3, wavelength_nm, hSI, cSI, hartreeJ]

/-- Upper bound on the 228 nm line's exact wavelength. -/
lemma qlam3_ub : lam3 ≤ 2279 / 10 := by
  norm_num [lam3, wavelength_nm, hSI, cSI, hartreeJ]

/-- The 228 nm line is within 0.2 nm of 228. -/
lemma q228 : |lam3 - 228| ≤ 1 / 5 := by
  norm_num [abs_le, lam3, wavelength_nm, hSI, cSI, hartreeJ]

/-- Validation passes on the concrete scenario. -/
lemma validate3 : validateInput ts3 cfg3 = Option.none := by
  rw [validateInput, if_neg (by simp [ts3]), if_neg (by simp [ts3]),
      if_neg (by simp [cfg3, boundsBad])]

/-- The engine's output on the concrete scenario. -/
lemma synth3 : synthesize ts3 cfg3 = .ok spec3 := by
  rw [synthesize, validate3]
  rfl

/-- The scenario grid in closed form. -/
lemma grid3_eq : gridOf ts3 cfg3 = (List.range 1000).map
    (fun i => gridA + (i : ℚ) * (gridB - gridA) / 999) := by
  have h : resolvedBounds ts3 cfg3 = (gridA, gridB) := by
    norm_num [resolvedBounds, ts3, cfg3, gridA, gridB, stickMin, stickMax, sticksOf,
      lam1, lam3, wavelength_nm, hSI, cSI, hartreeJ]
  rw [gridOf, h]
  norm_num [cfg3]

set_option maxRecDepth 8000

/-- x0q is the grid sample of index 104. -/
lemma x0_mem_grid : x0q ∈ gridOf ts3 cfg3 := by
  have h104 : (104 : ℕ) ∈ List.range 1000 := List.mem_range.mpr (by norm_num)
  have hmem := List.mem_map_of_mem (fun i : ℕ => gridA + (i : ℚ) * (gridB - gridA) / 999) h104
  have heq : gridA + ((104 : ℕ) : ℚ) * (gridB - gridA) / 999 = x0q := by
    rw [x0q]
    norm_num
  rw [grid3_eq]
  exact heq ▸ hmem

/-- The scenario curve as a map over the grid. -/
lemma spec3_curve : spec3.curve = (gridOf ts3 cfg3).map
    (fun x => (x, curveValue (sticksOf ts3) cfg3.width x)) := by
  unfold spec3
  rfl

/-- The sample at x0q is on the scenario curve. -/
lemma x0_pair_mem : (x0q, curveValue (sticksOf ts3) cfg3.width x0q) ∈ spec3.curve := by
  rw [spec3_curve]
  exact List.mem_map.mpr ⟨x0q, x0_mem_grid, rfl⟩

/-- Every curve sample's intensity is the accumulated kernel value at its
wavelength. -/
lemma curve_mem_shape (p : ℚ × ℝ) (hp : p ∈ spec3.curve) :
    p.2 = curveValue (sticksOf ts3) cfg3.width p.1 := by
  rw [spec3_curve] at hp
  obtain ⟨x, hx, he⟩ := List.mem_map.mp hp
  rw [← he]

/-- The scenario curve is nonempty. -/
lemma spec3_curve_ne : spec3.curve ≠ [] := by
  intro h
  have := x0_pair_mem
  rw [h] at this
  simp at this

/- ## C3 scenario: real-analytic bounds on the Gaussian curve -/

/-- The Gaussian factor is positive. -/
lemma E10_pos (t : ℝ) : 0 < E10 t := Real.exp_pos _

/-- The Gaussian factor is at most one. -/
lemma E10_le_one (t : ℝ) : E10 t ≤ 1 := by
  rw [E10]
  have h : -(t ^ 2) / 200 ≤ 0 := by
    rw [neg_div]
    exact neg_nonpos.mpr (by positivity)
  calc Real.exp (-(t ^ 2) / 200) ≤ Real.exp 0 := Real.exp_le_exp.mpr h
    _ = 1 := Real.exp_zero

/-- Linear lower bound on the Gaussian factor. -/
lemma E10_lb (t : ℝ) : 1 - t ^ 2 / 200 ≤ E10 t := by
  have h := Real.add_one_le_exp (-(t ^ 2) / 200)
  rw [E10]
  linarith

/-- Rational upper bound on the Gaussian factor away from the peak. -/
lemma E10_ub (t u : ℝ) (hu : 0 ≤ u) (h : u ≤ |t|) : E10 t ≤ 200 / (200 + u ^ 2) := by
  have h1 : u ^ 2 ≤ t ^ 2 := by
    have h2 := pow_le_pow_left₀ hu h 2
    rwa [sq_abs] at h2
  have h2 : E10 t ≤ Real.exp (-(u ^ 2) / 200) := by
    rw [E10]
    exact Real.exp_le_exp.mpr (by linarith)
  have h3 : Real.exp (-(u ^ 2) / 200) ≤ 200 / (200 + u ^ 2) := by
    have hx := Real.add_one_le_exp (u ^ 2 / 200)
    have hpos : (0 : ℝ) < u ^ 2 / 200 + 1 := by positivity
    rw [neg_div, Real.exp_neg]
    calc (Real.exp (u ^ 2 / 200))⁻¹ ≤ (u ^ 2 / 200 + 1)⁻¹ :=
          inv_anti₀ hpos (by linarith)
      _ = 200 / (200 + u ^ 2) := by
          rw [inv_eq_one_div]
          rw [div_eq_div_iff (by positivity) (by positivity)]
          ring
  exact h2.trans h3

/-- The normalization constant is positive. -/
lemma Z10_pos : 0 < Z10 := by
  rw [Z10]
  have h : 0 < Real.sqrt (2 * Real.pi) := Real.sqrt_pos.mpr (by positivity)
  linarith

/-- The scenario curve value in terms of the two-peak function N3. -/
lemma curve3_eq (x : ℚ) :
    curveValue (sticksOf ts3) cfg3.width x = N3 (x : ℝ) / Z10 := by
  show curveValue (sticksOf ts3) 10 x = N3 (x : ℝ) / Z10
  have hs : sticksOf ts3 = [(lam1, 1 / 2), (lam2, 0), (lam3, 4 / 5)] := rfl
  rw [curveValue, hs]
  simp only [List.map_cons, List.map_nil, List.sum_cons, List.sum_nil]
  rw [gaussKernel, gaussKernel, gaussKernel, N3, E10, E10, Z10]
  push_cast
  norm_num
  ring

/-- Lower bound on the curve's two-peak numerator at x0q. -/
lemma N3_x0_lb : (19999 / 25000 : ℝ) ≤ N3 (x0q : ℝ) := by
  have hx0 : |(x0q : ℝ) - (lam3 : ℝ)| ≤ 1 / 10 := by
    have h0 : ((|x0q - lam3| : ℚ) : ℝ) ≤ ((1 / 10 : ℚ) : ℝ) := Rat.cast_le.mpr qx0
    push_cast at h0
    exact h0
  have hsq : ((x0q : ℝ) - lam3) ^ 2 ≤ 1 / 100 := by
    have h1 := pow_le_pow_left₀ (abs_nonneg ((x0q : ℝ) - lam3)) hx0 2
    rw [sq_abs] at h1
    calc ((x0q : ℝ) - lam3) ^ 2 ≤ (1 / 10 : ℝ) ^ 2 := h1
      _ = 1 / 100 := by norm_num
  have hE := E10_lb ((x0q : ℝ) - (lam3 : ℝ))
  have hA : 0 ≤ (1 / 2 : ℝ) * E10 ((x0q : ℝ) - (lam1 : ℝ)) :=
    mul_nonneg (by norm_num) (le_of_lt (E10_pos _))
  rw [N3]
  nlinarith

/-- Upper bound on the two-peak numerator at any point at least 9.8 nm from
the 228 nm line. -/
lemma N3_outside_ub (x : ℝ) (h : (49 / 5 : ℝ) ≤ |x - (lam3 : ℝ)|) : N3 x ≤ 14 / 25 := by
  have hsep : (2277 / 10 : ℝ) ≤ (lam1 : ℝ) - (lam3 : ℝ) := by
    have h0 : ((2277 / 10 : ℚ) : ℝ) ≤ ((lam1 - lam3 : ℚ) : ℝ) := Rat.cast_le.mpr qsep
    push_cast at h0
    exact h0
  rcases le_total (|x - (lam1 : ℝ)|) 100 with hc | hc
  · have htri : (lam1 : ℝ) - lam3 ≤ |x - (lam1 : ℝ)| + |x - (lam3 : ℝ)| := by
      have h1 : (lam1 : ℝ) - lam3 = (x - lam3) - (x - lam1) := by ring
      rw [h1]
      calc (x - (lam3 : ℝ)) - (x - lam1) ≤ |(x - (lam3 : ℝ)) - (x - lam1)| := le_abs_self _
        _ ≤ |x - (lam3 : ℝ)| + |x - (lam1 : ℝ)| := abs_sub _ _
        _ = |x - (lam1 : ℝ)| + |x - (lam3 : ℝ)| := add_comm _ _
    have hfar : (1277 / 10 : ℝ) ≤ |x - (lam3 : ℝ)| := by linarith
    have hB : E10 (x - (lam3 : ℝ)) ≤ 200 / (200 + (1277 / 10) ^ 2) :=
      E10_ub _ (1277 / 10) (by norm_num) hfar
    have hA2 : E10 (x - (lam1 : ℝ)) ≤ 1 := E10_le_one _
    rw [N3]
    have hfr : (200 : ℝ) / (200 + (1277 / 10) ^ 2) ≤ 1 / 80 := by norm_num
    nlinarith [E10_pos (x - (lam1 : ℝ)), E10_pos (x - (lam3 : ℝ))]
  · have hA2 : E10 (x - (lam1 : ℝ)) ≤ 200 / (200 + 100 ^ 2) :=
      E10_ub _ 100 (by norm_num) hc
    have hB : E10 (x - (lam3 : ℝ)) ≤ 200 / (200 + (49 / 5) ^ 2) :=
      E10_ub _ (49 / 5) (by norm_num) h
    rw [N3]
    have hf1 : (200 : ℝ) / (200 + 100 ^ 2) ≤ 1 / 51 := by norm_num
    have hf2 : (200 : ℝ) / (200 + (49 / 5) ^ 2) ≤ 68 / 100 := by norm_num
    nlinarith [E10_pos (x - (lam1 : ℝ)), E10_pos (x - (lam3 : ℝ))]

/-- Any curve sample at least 9.8 nm from the 228 nm line is strictly below
the sample at x0q. -/
lemma curve3_lt (x : ℚ) (h : (49 / 5 : ℝ) ≤ |(x : ℝ) - (lam3 : ℝ)|) :
    curveValue (sticksOf ts3) cfg3.width x < curveValue (sticksOf ts3) cfg3.width x0q := by
  rw [curve3_eq, curve3_eq]
  apply (div_lt_div_iff_of_pos_right Z10_pos).mpr
  calc N3 (x : ℝ) ≤ 14 / 25 := N3_outside_ub _ h
    _ < 19999 / 25000 := by norm_num
    _ ≤ N3 (x0q : ℝ) := N3_x0_lb

/-- A wavelength within 10 nm of 456 nm is at least 9.8 nm from the 228 nm
line. -/
lemma far_of_window456 (y : ℚ) (h : |y - 456| ≤ 10) :
    (49 / 5 : ℝ) ≤ |(y : ℝ) - (lam3 : ℝ)| := by
  have hy : |(y : ℝ) - 456| ≤ 10 := by
    have h0 : ((|y - 456| : ℚ) : ℝ) ≤ ((10 : ℚ) : ℝ) := Rat.cast_le.mpr h
    push_cast at h0
    exact h0
  have h3 : (lam3 : ℝ) ≤ 2279 / 10 := by
    have h0 : ((lam3 : ℚ) : ℝ) ≤ ((2279 / 10 : ℚ) : ℝ) := Rat.cast_le.mpr qlam3_ub
    push_cast at h0
    exact h0
  rw [abs_le] at hy
  have : (49 / 5 : ℝ) ≤ (y : ℝ) - lam3 := by linarith
  exact le_trans this (le_abs_self _)

/-- A wavelength farther than 10 nm from 228 nm is at least 9.8 nm from the
228 nm line. -/
lemma far_of_not_window228 (y : ℚ) (h : ¬ |y - 228| ≤ 10) :
    (49 / 5 : ℝ) ≤ |(y : ℝ) - (lam3 : ℝ)| := by
  have h1 : (10 : ℝ) < |(y : ℝ) - 228| := by
    have h0 : ((10 : ℚ) : ℝ) < ((|y - 228| : ℚ) : ℝ) := Rat.cast_lt.mpr (not_le.mp h)
    push_cast at h0
    exact h0
  have h2 : |(lam3 : ℝ) - 228| ≤ 1 / 5 := by
    have h0 : ((|lam3 - 228| : ℚ) : ℝ) ≤ ((1 / 5 : ℚ) : ℝ) := Rat.cast_le.mpr q228
    push_cast at h0
    exact h0
  have h3 : |(y : ℝ) - 228| ≤ |(y : ℝ) - (lam3 : ℝ)| + |(lam3 : ℝ) - 228| :=
    abs_sub_le _ _ _
  linarith

/-- Every nonempty curve has a sample of maximal intensity. -/
lemma exists_max_snd (l : List (ℚ × ℝ)) : l ≠ [] → ∃ p ∈ l, ∀ q ∈ l, q.2 ≤ p.2 := by
  induction l with
  | nil => intro h; exact absurd rfl h
  | cons a t ih =>
    intro _
    by_cases hte : t = []
    · subst hte
      refine ⟨a, List.mem_cons_self a [], fun q hq => ?_⟩
      have hqa : q = a := by simpa using hq
      rw [hqa]
    · obtain ⟨p, hp, hmx⟩ := ih hte
      rcases le_total p.2 a.2 with hle | hle
      · refine ⟨a, List.mem_cons_self a t, fun q hq => ?_⟩
        rcases List.mem_cons.mp hq with h1 | h1
        · rw [h1]
        · exact le_trans (hmx q h1) hle
      · refine ⟨p, List.mem_cons_of_mem a hp, fun q hq => ?_⟩
        rcases List.mem_cons.mp hq with h1 | h1
        · rw [h1]; exact hle
        · exact hmx q h1

/- ## Claim C3 -/

/-- C3 counterexample: on the concrete scenario (0.1, 0.15, 0.2 Hartree with
strengths 0.5, 0.0, 0.8; Gaussian broadening of width 10 nm), the
synthesized curve's maximum does NOT lie within one width of 456 nm: the
strongest line (strength 0.8) sits near 228 nm and dominates the curve. -/
theorem c3_counterexample :
    synthesize ts3 cfg3 = .ok spec3 ∧ ¬ maxWithin spec3 456 10 := by
  refine ⟨synth3, ?_⟩
  rintro ⟨p, hp, hmax, hnear⟩
  have hshape := curve_mem_shape p hp
  have hlt := curve3_lt p.1 (far_of_window456 p.1 hnear)
  have hle := hmax _ x0_pair_mem
  rw [hshape] at hle
  exact absurd hle (not_le.mpr hlt)

/-- C3 (amended): on the concrete scenario the conversion yields
wavelengths within 1 nm of 456, 304, and 228 nm, and with Gaussian
broadening the synthesized curve's maximum lies within one width of 228 nm
(the strongest line), not 456 nm. -/
theorem c3_scenario_amended :
    synthesize ts3 cfg3 = .ok spec3 ∧
    |wavelength_nm (1 / 10) - 456| ≤ 1 ∧ |wavelength_nm (3 / 20) - 304| ≤ 1 ∧
    |wavelength_nm (1 / 5) - 228| ≤ 1 ∧ maxWithin spec3 228 10 := by
  refine ⟨synth3, qacc1, qacc2, qacc3, ?_⟩
  obtain ⟨p, hp, hmx⟩ := exists_max_snd spec3.curve spec3_curve_ne
  refine ⟨p, hp, hmx, ?_⟩
  by_contra hfarq
  have hlt := curve3_lt p.1 (far_of_not_window228 p.1 hfarq)
  have hle := hmx _ x0_pair_mem
  rw [curve_mem_shape p hp] at hle
  exact absurd hle (not_le.mpr hlt)

end UvLab
